import Mathlib

/-!
Verification of the auto_vertical_spread_trader repository against its
natural-language specification.  The Python modules are shallowly embedded:
prices and option quotes become rationals, dictionaries become structures
with `Option` fields for optional keys, and Python exceptions become an
explicit `aborted` outcome.  All definitions are translated from the source
files (`executor.py`, `monitor.py`, `runner.py`, `exits.py`, `scans.py`,
`pattern_utils.py`, `config.py`).
-/

namespace AutoTrader

/-- Strategy direction, as the strings `'bull'`, `'bear'`, `'high_base'`,
`'low_base'` used throughout the code. -/
inductive Direction
  | bull
  | bear
  | high_base
  | low_base
deriving DecidableEq, Repr

/-- `direction in ["bull", "high_base"]` — the test used in `executor.py`
and `monitor.py` to distinguish the bullish directions. -/
def Direction.isBullish : Direction → Bool
  | .bull => true
  | .high_base => true
  | .bear => false
  | .low_base => false

/-- Banker's rounding of a rational to the nearest integer (Python's
`round` on an exactly-representable value: ties go to the even integer). -/
def roundHalfEven (q : ℚ) : ℤ :=
  let f : ℤ := ⌊q⌋
  let r : ℚ := q - f
  if r < 1/2 then f
  else if 1/2 < r then f + 1
  else if f % 2 = 0 then f else f + 1

/-- Python `round(x, 2)`: round to two decimal places, ties to even. -/
def round2 (x : ℚ) : ℚ := (roundHalfEven (x * 100) : ℚ) / 100

/-! ## Executor (`executor.py`, `select_and_place`)

The per-candidate part of the strike loop (lines 81–209).  Chain discovery,
market-data retries and the actual order submission are brokerage I/O; the
quote data a candidate is judged on is captured in `LegQuote` /
`Candidate`, and the gate logic is translated line by line. -/

/-- One option leg's live market data: `tick.bid`, `tick.ask`, and whether
`tick.modelGreeks` is present (with its delta). -/
structure LegQuote where
  bid : ℚ
  ask : ℚ
  hasGreeks : Bool
  delta : ℚ
deriving DecidableEq, Repr

/-- One candidate strike pair as evaluated inside the `for k1 in strikes`
loop: the two leg quotes and the spread width `abs(k2 - k1)`. -/
structure Candidate where
  long : LegQuote
  short : LegQuote
  width : ℚ
deriving DecidableEq, Repr

/-- The executor-related configuration keys (`config.py`).
`MIN_REWARD_RISK` embeds the key `MIN_REWARD_RISK_RATIO`. -/
structure ExecConfig where
  MIN_DELTA : ℚ
  MAX_COST : ℚ
  MIN_REWARD_RISK : ℚ
  MAX_BID_ASK_PCT : ℚ
deriving DecidableEq, Repr

/-- The defaults from `config.py`. -/
def defaultExecConfig : ExecConfig :=
  { MIN_DELTA := 3/10
    MAX_COST := 500
    MIN_REWARD_RISK := 1
    MAX_BID_ASK_PCT := 15/100 }

/-- `mid = (bid + ask) / 2` (executor.py lines 126–127). -/
def LegQuote.mid (t : LegQuote) : ℚ := (t.bid + t.ask) / 2

/-- `debit = round((mid1 - mid2) * 100, 2)` (executor.py line 148). -/
def candDebit (c : Candidate) : ℚ := round2 ((c.long.mid - c.short.mid) * 100)

/-- `reward = width * 100 - debit` (executor.py line 149). -/
def candReward (c : Candidate) : ℚ := c.width * 100 - candDebit c

/-- Outcome of one iteration of the strike loop: the candidate is traded
(`placed`), skipped by a `continue` (`rejected`), or a Python exception
escapes to the outermost handler (`aborted`). -/
inductive CandOutcome
  | placed
  | rejected
  | aborted
deriving DecidableEq, Repr

/-- One iteration of the candidate loop of `select_and_place`
(executor.py lines 100–203), for a candidate whose strikes passed the
OTM-side and wing-index checks.  Follows the source order exactly:
missing Greeks, non-positive bid/ask and wide bid-ask spreads `continue`;
then the delta, cost and reward/risk gates; `reward / debit` raises
`ZeroDivisionError` when `debit = 0`, which no inner handler catches. -/
def evalCandidate (cfg : ExecConfig) (d : Direction) (c : Candidate) : CandOutcome :=
  if ¬(c.long.hasGreeks ∧ c.short.hasGreeks) then .rejected
  else
    let delta := c.long.delta
    let mid1 := c.long.mid
    let mid2 := c.short.mid
    if c.long.bid ≤ 0 ∨ c.long.ask ≤ 0 then .rejected
    else if (c.long.ask - c.long.bid) / ((c.long.ask + c.long.bid) / 2) > cfg.MAX_BID_ASK_PCT then .rejected
    else if c.short.bid ≤ 0 ∨ c.short.ask ≤ 0 then .rejected
    else if (c.short.ask - c.short.bid) / ((c.short.ask + c.short.bid) / 2) > cfg.MAX_BID_ASK_PCT then .rejected
    else
      let debit := round2 ((mid1 - mid2) * 100)
      let reward := c.width * 100 - debit
      if d.isBullish ∧ |delta| < cfg.MIN_DELTA then .rejected
      else if ¬d.isBullish ∧ |delta| < cfg.MIN_DELTA then .rejected
      else if debit > cfg.MAX_COST then .rejected
      else if debit = 0 then .aborted
      else if reward / debit < cfg.MIN_REWARD_RISK then .rejected
      else .placed

/-- The strike loop of `select_and_place` over the surviving candidates,
in ascending strike order: the first `placed` candidate returns `True`, a
`rejected` candidate moves to the next strike, and an escaped exception is
caught by the outermost handler (executor.py lines 205–209), which returns
`False` — abandoning every remaining candidate. -/
def selectLoop (cfg : ExecConfig) (d : Direction) : List Candidate → Bool
  | [] => false
  | c :: rest =>
    match evalCandidate cfg d c with
    | .placed => true
    | .rejected => selectLoop cfg d rest
    | .aborted => false

/-- Width-5 candidate priced at a $260 debit: long mid 3.00, short mid
0.40, healthy bid-ask spreads and delta 0.5. -/
def cand260 : Candidate :=
  { long := { bid := 29/10, ask := 31/10, hasGreeks := true, delta := 1/2 }
    short := { bid := 39/100, ask := 41/100, hasGreeks := true, delta := 1/4 }
    width := 5 }

/-- Width-5 candidate priced at a $240 debit: long mid 2.80, short mid
0.40, healthy bid-ask spreads and delta 0.5. -/
def cand240 : Candidate :=
  { long := { bid := 27/10, ask := 29/10, hasGreeks := true, delta := 1/2 }
    short := { bid := 39/100, ask := 41/100, hasGreeks := true, delta := 1/4 }
    width := 5 }

/-- Width-5 candidate whose two legs have equal mid prices (both 1.00),
passing the liquidity gates, so that `debit = 0`. -/
def candZeroDebit : Candidate :=
  { long := { bid := 95/100, ask := 105/100, hasGreeks := true, delta := 1/2 }
    short := { bid := 95/100, ask := 105/100, hasGreeks := true, delta := 1/4 }
    width := 5 }

/-- Helper: the $260-debit candidate prices to debit 260, reward 240. -/
lemma debit_cand260 : candDebit cand260 = 260 := by
  norm_num [candDebit, round2, roundHalfEven, LegQuote.mid, cand260]

/-- Helper: the $240-debit candidate prices to debit 240, reward 260. -/
lemma debit_cand240 : candDebit cand240 = 240 := by
  norm_num [candDebit, round2, roundHalfEven, LegQuote.mid, cand240]

/-- Helper: equal mids price to a zero debit. -/
lemma debit_candZeroDebit : candDebit candZeroDebit = 0 := by
  norm_num [candDebit, round2, roundHalfEven, LegQuote.mid, candZeroDebit]

/-- Helper: the $260-debit candidate fails the reward/risk gate. -/
lemma eval_cand260 :
    evalCandidate defaultExecConfig .bull cand260 = .rejected := by
  norm_num [evalCandidate, cand260, defaultExecConfig, LegQuote.mid,
    Direction.isBullish, round2, roundHalfEven, abs_of_pos]

/-- Helper: the $240-debit candidate passes every gate. -/
lemma eval_cand240 :
    evalCandidate defaultExecConfig .bull cand240 = .placed := by
  norm_num [evalCandidate, cand240, defaultExecConfig, LegQuote.mid,
    Direction.isBullish, round2, roundHalfEven, abs_of_pos]

/-- Helper: the zero-debit candidate raises at the reward/risk division. -/
lemma eval_candZeroDebit :
    evalCandidate defaultExecConfig .bull candZeroDebit = .aborted := by
  norm_num [evalCandidate, candZeroDebit, defaultExecConfig, LegQuote.mid,
    Direction.isBullish, round2, roundHalfEven, abs_of_pos]

end AutoTrader

namespace AutoTrader

set_option maxHeartbeats 1000000 in
/-- C1: in `select_and_place`, every candidate that reaches the pricing
step has `debit = round((mid_long − mid_short) × 100, 2)` and
`reward = width × 100 − debit`, and is rejected (never placed) when
`debit > MAX_COST` or `reward / debit < MIN_REWARD_RISK_RATIO`; with the
default config and width 5, a $260-debit candidate is rejected and a
$240-debit candidate passes the gate and is placed. -/
theorem c1_pricing_and_gates :
    (∀ (cfg : ExecConfig) (d : Direction) (c : Candidate),
      candDebit c = round2 ((c.long.mid - c.short.mid) * 100) ∧
      candReward c = c.width * 100 - candDebit c ∧
      (candDebit c > cfg.MAX_COST ∨
        (candDebit c ≠ 0 ∧ candReward c / candDebit c < cfg.MIN_REWARD_RISK) →
        evalCandidate cfg d c ≠ .placed)) ∧
    candDebit cand260 = 260 ∧ candReward cand260 = 240 ∧
    evalCandidate defaultExecConfig .bull cand260 = .rejected ∧
    candDebit cand240 = 240 ∧ candReward cand240 = 260 ∧
    evalCandidate defaultExecConfig .bull cand240 = .placed := by
  refine ⟨fun cfg d c => ⟨rfl, rfl, fun h hp => ?_⟩, debit_cand260,
    by rw [candReward, debit_cand260]; norm_num [cand260], eval_cand260,
    debit_cand240, by rw [candReward, debit_cand240]; norm_num [cand240],
    eval_cand240⟩
  simp only [evalCandidate, candDebit, candReward, LegQuote.mid] at hp h
  split_ifs at hp with g1 g2 g3 g4 g5 g6 g7 g8 g9 g10
  rcases h with h | ⟨h1, h2⟩
  · exact g8 h
  · exact g10 h2

/-- Witness for C1: the universally quantified gate statement applied at
the concrete $260-debit candidate, discharging the reward/risk hypothesis
by computation. -/
theorem c1_pricing_and_gates_witness :
    evalCandidate defaultExecConfig .bull cand260 ≠ .placed :=
  (c1_pricing_and_gates.1 defaultExecConfig .bull cand260).2.2
    (Or.inr ⟨by rw [debit_cand260]; norm_num,
      by rw [candReward, debit_cand260]; norm_num [cand260, defaultExecConfig]⟩)

/-- C9: the reward/risk gate divides by `debit` unguarded; a candidate
with equal leg mids that passes the liquidity gates makes the division
raise, the exception reaches only the outermost handler, and
`select_and_place` returns `False`, abandoning the remaining candidates —
here a later candidate that on its own would be placed. -/
theorem c9_zero_debit_aborts_loop :
    candDebit candZeroDebit = 0 ∧
    evalCandidate defaultExecConfig .bull candZeroDebit = .aborted ∧
    selectLoop defaultExecConfig .bull [candZeroDebit, cand240] = false ∧
    selectLoop defaultExecConfig .bull [cand240] = true := by
  refine ⟨debit_candZeroDebit, eval_candZeroDebit, ?_, ?_⟩
  · simp [selectLoop, eval_candZeroDebit]
  · simp [selectLoop, eval_cand240]

/-! ## Position monitor (`monitor.py`, `StopLossMonitor`)

`_check_exit_conditions` and `_update_trailing_stop`, embedded over a
position-info record whose optional dictionary keys become `Option`
fields. -/

/-- The monitor-related configuration keys (`config.py`). -/
structure MonitorConfig where
  STOP_LOSS_ATR_MULT : ℚ
  TRAILING_STOP_ENABLED : Bool
  TRAILING_STOP_BUFFER : ℚ
deriving DecidableEq, Repr

/-- A spread-book entry as consumed by the monitor: the keys written by
`select_and_place` plus the optional `price_target`,
`trailing_stop_price`, `trailing_high` and `trailing_low` keys. -/
structure PositionInfo where
  type : Direction
  entryPrice : ℚ
  ATR : ℚ
  price_target : Option ℚ
  trailing_stop_price : Option ℚ
  trailing_high : Option ℚ
  trailing_low : Option ℚ
deriving DecidableEq, Repr

/-- The exit reasons returned by `_check_exit_conditions`. -/
inductive ExitReason
  | stop_loss
  | profit_target
  | trailing_stop
deriving DecidableEq, Repr

/-- The trailing-stop trigger check at the end of
`_check_exit_conditions` (monitor.py lines 192–201). -/
def trailingTrigger (info : PositionInfo) (cur : ℚ) :
    Option ExitReason × PositionInfo :=
  match info.trailing_stop_price with
  | some tsp =>
    if info.type.isBullish ∧ cur ≤ tsp then (some .trailing_stop, info)
    else if ¬info.type.isBullish ∧ cur ≥ tsp then (some .trailing_stop, info)
    else (none, info)
  | none => (none, info)

/-- The profit-target branch of `_check_exit_conditions` (monitor.py
lines 166–201): when a `price_target` key exists and is reached, either
arm a trailing stop (returning no exit) or report a profit-target exit;
otherwise fall through to the trailing-stop trigger. -/
def profitTargetBranch (cfg : MonitorConfig) (info : PositionInfo)
    (cur : ℚ) : Option ExitReason × PositionInfo :=
  match info.price_target with
  | some tgt =>
    if info.type.isBullish ∧ cur ≥ tgt then
      if cfg.TRAILING_STOP_ENABLED then
        (none, { info with
          trailing_stop_price := some (cur - info.ATR * cfg.TRAILING_STOP_BUFFER)
          trailing_high := some cur })
      else (some .profit_target, info)
    else if ¬info.type.isBullish ∧ cur ≤ tgt then
      if cfg.TRAILING_STOP_ENABLED then
        (none, { info with
          trailing_stop_price := some (cur + info.ATR * cfg.TRAILING_STOP_BUFFER)
          trailing_low := some cur })
      else (some .profit_target, info)
    else trailingTrigger info cur
  | none => trailingTrigger info cur

/-- `_check_exit_conditions` (monitor.py lines 140–201): stop-loss first,
then the profit-target branch, then the trailing-stop trigger.  The
Python method mutates `info` in place when arming a trailing stop; here
the updated record is returned alongside the exit reason. -/
def checkExitConditions (cfg : MonitorConfig) (info : PositionInfo)
    (cur : ℚ) : Option ExitReason × PositionInfo :=
  let stop_diff := cfg.STOP_LOSS_ATR_MULT * info.ATR
  if info.type.isBullish ∧ cur ≤ info.entryPrice - stop_diff then
    (some .stop_loss, info)
  else if ¬info.type.isBullish ∧ cur ≥ info.entryPrice + stop_diff then
    (some .stop_loss, info)
  else profitTargetBranch cfg info cur

/-- `current_price < info.get('trailing_low', float('inf'))`
(monitor.py line 221): a missing running low compares as infinity. -/
def ltTrailingLow (tl : Option ℚ) (cur : ℚ) : Bool :=
  match tl with
  | some lo => decide (cur < lo)
  | none => true

/-- `_update_trailing_stop` (monitor.py lines 203–224):
`info.get('trailing_high', 0)` becomes `Option.getD` with default 0. -/
def updateTrailingStop (cfg : MonitorConfig) (info : PositionInfo)
    (cur : ℚ) : PositionInfo :=
  if info.type.isBullish ∧ cur > info.trailing_high.getD 0 then
    { info with
      trailing_high := some cur
      trailing_stop_price := some (cur - info.ATR * cfg.TRAILING_STOP_BUFFER) }
  else if ¬info.type.isBullish ∧ ltTrailingLow info.trailing_low cur then
    { info with
      trailing_low := some cur
      trailing_stop_price := some (cur + info.ATR * cfg.TRAILING_STOP_BUFFER) }
  else info

/-- One monitor cycle for one position after the current price is fetched
(`_check_position`, monitor.py lines 126–138, minus the closing orders):
evaluate exit conditions; when none fired, update the trailing stop if
enabled and armed. -/
def checkPositionStep (cfg : MonitorConfig) (info : PositionInfo)
    (cur : ℚ) : Option ExitReason × PositionInfo :=
  match checkExitConditions cfg info cur with
  | (none, info1) =>
    if cfg.TRAILING_STOP_ENABLED ∧ info1.trailing_stop_price.isSome then
      (none, updateTrailingStop cfg info1 cur)
    else (none, info1)
  | (some r, info1) => (some r, info1)

/-- The monitor configuration used in the C2 example: stop-loss
multiplier 1.5, trailing stops disabled. -/
def cfgC2 : MonitorConfig :=
  { STOP_LOSS_ATR_MULT := 3/2
    TRAILING_STOP_ENABLED := false
    TRAILING_STOP_BUFFER := 1/2 }

/-- The bullish position of the C2 example: entry 100, ATR 2, no
profit target and no trailing stop. -/
def posC2 : PositionInfo :=
  { type := .bull
    entryPrice := 100
    ATR := 2
    price_target := none
    trailing_stop_price := none
    trailing_high := none
    trailing_low := none }

/-- Helper: the trailing-stop trigger never reports a stop-loss exit. -/
lemma trailingTrigger_ne_stop_loss (info : PositionInfo) (cur : ℚ) :
    (trailingTrigger info cur).1 ≠ some .stop_loss := by
  simp only [trailingTrigger]
  rcases info.trailing_stop_price with _ | tsp <;> simp only
  · simp
  · split_ifs <;> simp

/-- Helper: the profit-target branch never reports a stop-loss exit. -/
lemma profitTargetBranch_ne_stop_loss (cfg : MonitorConfig)
    (info : PositionInfo) (cur : ℚ) :
    (profitTargetBranch cfg info cur).1 ≠ some .stop_loss := by
  simp only [profitTargetBranch]
  rcases info.price_target with _ | tgt <;> simp only
  · exact trailingTrigger_ne_stop_loss info cur
  · split_ifs <;>
      first
        | exact trailingTrigger_ne_stop_loss info cur
        | simp

end AutoTrader

namespace AutoTrader

/-- C2: `_check_exit_conditions` returns a stop-loss exit exactly when
`current ≤ entry − ATR × STOP_LOSS_ATR_MULT` for bullish directions, or
`current ≥ entry + ATR × STOP_LOSS_ATR_MULT` for bearish directions,
boundary inclusive; with entry 100, ATR 2, multiplier 1.5 a bullish
position exits at current price 96 and does not exit at 98. -/
theorem c2_stop_loss_iff :
    (∀ (cfg : MonitorConfig) (info : PositionInfo) (cur : ℚ),
      (checkExitConditions cfg info cur).1 = some .stop_loss ↔
        ((info.type.isBullish = true ∧
            cur ≤ info.entryPrice - cfg.STOP_LOSS_ATR_MULT * info.ATR) ∨
          (info.type.isBullish = false ∧
            cur ≥ info.entryPrice + cfg.STOP_LOSS_ATR_MULT * info.ATR))) ∧
    (checkExitConditions cfgC2 posC2 96).1 = some .stop_loss ∧
    (checkExitConditions cfgC2 posC2 98).1 = none := by
  refine ⟨fun cfg info cur => ?_, ?_, ?_⟩
  · simp only [checkExitConditions]
    split_ifs with g1 g2
    · simp only [true_iff]
      exact Or.inl ⟨g1.1, g1.2⟩
    · simp only [true_iff]
      exact Or.inr ⟨by simpa using g2.1, g2.2⟩
    · refine iff_of_false (profitTargetBranch_ne_stop_loss cfg info cur) ?_
      rintro (⟨hb, hc⟩ | ⟨hb, hc⟩)
      · exact g1 ⟨hb, hc⟩
      · exact g2 ⟨by simp [hb], hc⟩
  · norm_num [checkExitConditions, cfgC2, posC2, Direction.isBullish]
  · norm_num [checkExitConditions, cfgC2, posC2, Direction.isBullish,
      profitTargetBranch, trailingTrigger]

/-- Monitor configuration with trailing stops enabled: stop-loss
multiplier 2, trailing buffer 1. -/
def cfgC5 : MonitorConfig :=
  { STOP_LOSS_ATR_MULT := 2
    TRAILING_STOP_ENABLED := true
    TRAILING_STOP_BUFFER := 1 }

/-- A bullish position whose trailing stop was armed on a cycle with
current price 110 (target 105, ATR 1): running high 110, trailing stop
109. -/
def posArmed : PositionInfo :=
  { type := .bull
    entryPrice := 100
    ATR := 1
    price_target := some 105
    trailing_stop_price := some 109
    trailing_high := some 110
    trailing_low := none }

/-- C5 (violated by the code): on the next monitor cycle with the price
fallen to 106 — still at or above the 105 target — the profit-target
branch of `_check_exit_conditions` re-arms the trailing stop at
`current − ATR × TRAILING_STOP_BUFFER`, moving `trailing_stop_price`
from 109 down to 105 against the position, and returns no exit even
though 106 is below the previously armed stop of 109. -/
theorem c5_trailing_stop_can_decrease :
    posArmed.trailing_stop_price = some 109 ∧
    (checkPositionStep cfgC5 posArmed 106).2.trailing_stop_price = some 105 ∧
    (checkPositionStep cfgC5 posArmed 106).1 = none ∧
    (105 : ℚ) < 109 ∧ (106 : ℚ) ≤ 109 := by
  refine ⟨rfl, ?_, ?_, by norm_num, by norm_num⟩ <;>
    norm_num [checkPositionStep, checkExitConditions, profitTargetBranch,
      updateTrailingStop, ltTrailingLow, trailingTrigger, cfgC5, posArmed,
      Direction.isBullish]

/-! ## Runner (`runner.py`, `AutoVerticalSpreadTrader.run_entries_if_time`)

The daily entry run.  The open-position book `spread_book` is a dict
keyed by underlying symbol; its key list in insertion order is the
embedding.  `select_and_place` — brokerage I/O from the runner's point of
view — is abstracted as a success oracle `place`; on success it adds the
symbol to the book (executor.py line 180). -/

/-- The runner-related configuration keys (`config.py`).
`MAX_DAILY_TRADES` is an `ℤ` like every Python int, so that the
`space_available ≤ 0` comparison is modelled exactly. -/
structure RunnerConfig where
  MAX_DAILY_TRADES : ℤ
  MAX_POSITIONS : ℕ
  SCAN_HOUR_ET : ℕ
deriving DecidableEq, Repr

/-- The result of `run_scan('all')`: one symbol list per scan type, in
the dict insertion order of runner.py lines 167–201. -/
structure ScanResults where
  bull_pullbacks : List String
  bear_rallies : List String
  high_base : List String
  low_base : List String
deriving DecidableEq, Repr

/-- Flattening of the scan results into `all_signals` (runner.py lines
239–241): dict iteration preserves insertion order, so signals appear in
the order bull, bear, high-base, low-base, each tagged with the direction
its scan type maps to. -/
def flattenSignals (sr : ScanResults) : List (Direction × String) :=
  sr.bull_pullbacks.map (fun s => (Direction.bull, s)) ++
  sr.bear_rallies.map (fun s => (Direction.bear, s)) ++
  sr.high_base.map (fun s => (Direction.high_base, s)) ++
  sr.low_base.map (fun s => (Direction.low_base, s))

/-- Result of the order-placing loop: the book after the loop, the
number of trades placed, and the signals actually handed to
`select_and_place` (in order). -/
structure LoopResult where
  book : List String
  placed : ℕ
  attempted : List (Direction × String)
deriving DecidableEq, Repr

/-- The order-placing loop (runner.py lines 258–270): skip symbols
already in the book, count successful placements (each of which adds its
symbol to the book), and break once `trades_placed ≥ space_available`. -/
def placeLoop (place : Direction → String → Bool) (space : ℕ) :
    List String → ℕ → List (Direction × String) → LoopResult
  | book, placed, [] => ⟨book, placed, []⟩
  | book, placed, (d, sym) :: rest =>
    if sym ∈ book then placeLoop place space book placed rest
    else
      let ok := place d sym
      let book2 := if ok then book ++ [sym] else book
      let placed2 := if ok then placed + 1 else placed
      if placed2 ≥ space then ⟨book2, placed2, [(d, sym)]⟩
      else
        let r := placeLoop place space book2 placed2 rest
        ⟨r.book, r.placed, (d, sym) :: r.attempted⟩

/-- Outcome of one daily entry run: final book, trades placed, whether
the scans ran at all, the signals handed to the executor, and the
method's return value. -/
structure EntryOutcome where
  book : List String
  placed : ℕ
  scanned : Bool
  attempted : List (Direction × String)
  ret : Bool
deriving DecidableEq, Repr

/-- The body of `run_entries_if_time` after the once-per-day guard
(runner.py lines 227–284): skip without scanning when the book is at
`MAX_POSITIONS`; otherwise scan, compute
`space_available = min(MAX_DAILY_TRADES, MAX_POSITIONS − len(book))`,
return early when it is non-positive, truncate the combined signal list
to it, and run the placing loop. -/
def runEntriesBody (cfg : RunnerConfig) (book : List String)
    (sr : ScanResults) (place : Direction → String → Bool) : EntryOutcome :=
  if book.length ≥ cfg.MAX_POSITIONS then
    ⟨book, 0, false, [], false⟩
  else
    let all_signals := flattenSignals sr
    let space : ℤ := min cfg.MAX_DAILY_TRADES ((cfg.MAX_POSITIONS : ℤ) - book.length)
    if space ≤ 0 then ⟨book, 0, true, [], true⟩
    else
      let sigs := if (all_signals.length : ℤ) > space then
        all_signals.take space.toNat else all_signals
      let r := placeLoop place space.toNat book 0 sigs
      ⟨r.book, r.placed, true, r.attempted, true⟩

/-- The trader state relevant to the daily schedule: `last_run_date`
(a day number, `None` at startup) and the open-position book. -/
structure TraderState where
  last_run_date : Option ℕ
  spread_book : List String
deriving DecidableEq, Repr

/-- What happens inside the `try` block after `last_run_date` is
assigned: either the universe refresh, scans and placements complete
(with the given scan results), or some step raises, leaving the book in
whatever partial state it reached (caught at runner.py line 286). -/
inductive EntryBody
  | ok (sr : ScanResults)
  | raises (partialBook : List String)

/-- `run_entries_if_time` (runner.py lines 209–291): gated on the hour
and on not having run today; on entry the very first statement of the
`try` block sets `last_run_date = now.date()` (line 222), before the
universe refresh, the position-limit check and the scans; an exception
anywhere later is caught and the method returns `False`. -/
def run_entries_if_time (cfg : RunnerConfig) (st : TraderState)
    (today : ℕ) (hour : ℕ) (body : EntryBody)
    (place : Direction → String → Bool) : TraderState × Bool :=
  if hour ≥ cfg.SCAN_HOUR_ET ∧ st.last_run_date ≠ some today then
    match body with
    | .raises pb => (⟨some today, pb⟩, false)
    | .ok sr =>
      let out := runEntriesBody cfg st.spread_book sr place
      (⟨some today, out.book⟩, out.ret)
  else (st, false)

/-- Helper: the placing loop counts at most one success per signal. -/
lemma placeLoop_placed_le (place : Direction → String → Bool) (space : ℕ) :
    ∀ (sigs : List (Direction × String)) (book : List String) (placed : ℕ),
      (placeLoop place space book placed sigs).placed ≤ placed + sigs.length := by
  intro sigs
  induction sigs with
  | nil => intro book placed; simp [placeLoop]
  | cons hd tl ih =>
    intro book placed
    obtain ⟨d, sym⟩ := hd
    simp only [placeLoop, List.length_cons]
    split_ifs with hmem hok h1 h2
    · exact (ih book placed).trans (by omega)
    · dsimp only; omega
    · dsimp only; have := ih (book ++ [sym]) (placed + 1); omega
    · dsimp only; omega
    · dsimp only; have := ih book placed; omega

/-- Helper: the signals handed to the executor form a sublist of the
signal list given to the loop. -/
lemma placeLoop_attempted_sublist (place : Direction → String → Bool)
    (space : ℕ) :
    ∀ (sigs : List (Direction × String)) (book : List String) (placed : ℕ),
      (placeLoop place space book placed sigs).attempted.Sublist sigs := by
  intro sigs
  induction sigs with
  | nil => intro book placed; simp [placeLoop]
  | cons hd tl ih =>
    intro book placed
    obtain ⟨d, sym⟩ := hd
    simp only [placeLoop]
    split_ifs with hmem hok h1 h2
    · exact (ih book placed).cons (d, sym)
    · exact (List.nil_sublist tl).cons₂ (d, sym)
    · exact (ih _ _).cons₂ (d, sym)
    · exact (List.nil_sublist tl).cons₂ (d, sym)
    · exact (ih _ _).cons₂ (d, sym)

/-- Helper: the loop preserves distinctness of book keys (a success for
a symbol not in the book appends exactly that symbol). -/
lemma placeLoop_book_nodup (place : Direction → String → Bool) (space : ℕ) :
    ∀ (sigs : List (Direction × String)) (book : List String) (placed : ℕ),
      book.Nodup → (placeLoop place space book placed sigs).book.Nodup := by
  intro sigs
  induction sigs with
  | nil => intro book placed h; simpa [placeLoop] using h
  | cons hd tl ih =>
    intro book placed h
    obtain ⟨d, sym⟩ := hd
    simp only [placeLoop]
    split_ifs with hmem hok h1 h2
    · exact ih book placed h
    · have h2 : (book ++ [sym]).Nodup := by
        simp [List.nodup_append, h, hmem]
      exact h2
    · have h2 : (book ++ [sym]).Nodup := by
        simp [List.nodup_append, h, hmem]
      exact ih _ _ h2
    · exact h
    · exact ih _ _ h

/-- Helper: no symbol already in the book is ever handed to the
executor by the loop. -/
lemma placeLoop_attempted_disjoint (place : Direction → String → Bool)
    (space : ℕ) :
    ∀ (sigs : List (Direction × String)) (book : List String) (placed : ℕ)
      (s : String), s ∈ book →
      s ∉ (placeLoop place space book placed sigs).attempted.map Prod.snd := by
  intro sigs
  induction sigs with
  | nil => intro book placed s hs; simp [placeLoop]
  | cons hd tl ih =>
    intro book placed s hs
    obtain ⟨d, sym⟩ := hd
    simp only [placeLoop]
    split_ifs with hmem hok h1 h2
    · exact ih book placed s hs
    · have hne : s ≠ sym := fun h => hmem (h ▸ hs)
      simpa using hne
    · have hne : s ≠ sym := fun h => hmem (h ▸ hs)
      have hih := ih (book ++ [sym]) (placed + 1) s (List.mem_append_left _ hs)
      simp only [List.map_cons, List.mem_cons]
      rintro (h | h)
      · exact hne h
      · exact hih h
    · have hne : s ≠ sym := fun h => hmem (h ▸ hs)
      simpa using hne
    · have hne : s ≠ sym := fun h => hmem (h ▸ hs)
      have hih := ih book placed s hs
      simp only [List.map_cons, List.mem_cons]
      rintro (h | h)
      · exact hne h
      · exact hih h

/-- The risk-cap defaults from `config.py`: `MAX_DAILY_TRADES = 3`,
`MAX_POSITIONS = 10`, `SCAN_HOUR_ET = 15`. -/
def defaultRunnerConfig : RunnerConfig :=
  { MAX_DAILY_TRADES := 3
    MAX_POSITIONS := 10
    SCAN_HOUR_ET := 15 }

/-- Five qualifying signals across the four scans. -/
def srFive : ScanResults :=
  { bull_pullbacks := ["AAPL", "MSFT"]
    bear_rallies := ["TSLA"]
    high_base := ["NVDA"]
    low_base := ["JPM"] }

/-- An executor oracle that places every spread it is asked to. -/
def placeAll : Direction → String → Bool := fun _ _ => true

end AutoTrader

namespace AutoTrader

/-- C3: one daily entry run places at most
`min(MAX_DAILY_TRADES, MAX_POSITIONS − open count)` new positions; a
book already at `MAX_POSITIONS` skips the scans entirely and places no
trade; and the signals handed to the executor come from the combined
signal list in its fixed flatten order (bull, bear, high-base,
low-base), truncated to the remaining capacity with no re-ranking. -/
theorem c3_capacity_and_flatten_order :
    ∀ (cfg : RunnerConfig) (book : List String) (sr : ScanResults)
      (place : Direction → String → Bool),
      (runEntriesBody cfg book sr place).placed ≤
        (min cfg.MAX_DAILY_TRADES
          ((cfg.MAX_POSITIONS : ℤ) - book.length)).toNat ∧
      (book.length ≥ cfg.MAX_POSITIONS →
        (runEntriesBody cfg book sr place).scanned = false ∧
        (runEntriesBody cfg book sr place).placed = 0 ∧
        (runEntriesBody cfg book sr place).attempted = []) ∧
      (runEntriesBody cfg book sr place).attempted.Sublist
        ((flattenSignals sr).take
          (min cfg.MAX_DAILY_TRADES
            ((cfg.MAX_POSITIONS : ℤ) - book.length)).toNat) := by
  intro cfg book sr place
  simp only [runEntriesBody]
  split_ifs with hfull hsp hlen
  · exact ⟨by dsimp only; omega, fun _ => ⟨rfl, rfl, rfl⟩,
      by dsimp only; exact List.nil_sublist _⟩
  · exact ⟨by dsimp only; omega, fun h => absurd h hfull,
      by dsimp only; exact List.nil_sublist _⟩
  · refine ⟨?_, fun h => absurd h hfull, ?_⟩
    · dsimp only
      have h1 := placeLoop_placed_le place
        (min cfg.MAX_DAILY_TRADES ((cfg.MAX_POSITIONS : ℤ) - book.length)).toNat
        ((flattenSignals sr).take
          (min cfg.MAX_DAILY_TRADES ((cfg.MAX_POSITIONS : ℤ) - book.length)).toNat)
        book 0
      have h2 := List.length_take
        (min cfg.MAX_DAILY_TRADES ((cfg.MAX_POSITIONS : ℤ) - book.length)).toNat
        (flattenSignals sr)
      omega
    · dsimp only
      exact placeLoop_attempted_sublist place _ _ book 0
  · have hle : (flattenSignals sr).length ≤
        (min cfg.MAX_DAILY_TRADES ((cfg.MAX_POSITIONS : ℤ) - book.length)).toNat := by
      omega
    refine ⟨?_, fun h => absurd h hfull, ?_⟩
    · dsimp only
      have h1 := placeLoop_placed_le place
        (min cfg.MAX_DAILY_TRADES ((cfg.MAX_POSITIONS : ℤ) - book.length)).toNat
        (flattenSignals sr) book 0
      omega
    · dsimp only
      rw [List.take_of_length_le hle]
      exact placeLoop_attempted_sublist place _ _ book 0

/-- Witness for C3: with the default caps and a book already holding 10
positions, the run scans nothing and places nothing. -/
theorem c3_capacity_and_flatten_order_witness :
    (List.replicate 10 "S").length ≥ defaultRunnerConfig.MAX_POSITIONS ∧
    (runEntriesBody defaultRunnerConfig (List.replicate 10 "S") srFive
      placeAll).scanned = false ∧
    (runEntriesBody defaultRunnerConfig (List.replicate 10 "S") srFive
      placeAll).placed = 0 := by
  have h := (c3_capacity_and_flatten_order defaultRunnerConfig
    (List.replicate 10 "S") srFive placeAll).2.1 (by simp [defaultRunnerConfig])
  exact ⟨by simp [defaultRunnerConfig], h.1, h.2.1⟩

/-- C4: the open-position book keeps at most one spread per underlying —
during a daily entry run a signal whose symbol is already in the book is
never handed to the executor, and a book with distinct keys keeps
distinct keys. -/
theorem c4_one_spread_per_symbol :
    ∀ (cfg : RunnerConfig) (book : List String) (sr : ScanResults)
      (place : Direction → String → Bool),
      book.Nodup →
      (runEntriesBody cfg book sr place).book.Nodup ∧
      ∀ s ∈ book,
        s ∉ (runEntriesBody cfg book sr place).attempted.map Prod.snd := by
  intro cfg book sr place hnd
  simp only [runEntriesBody]
  split_ifs with hfull hsp hlen
  · exact ⟨hnd, by simp⟩
  · exact ⟨hnd, by simp⟩
  · exact ⟨placeLoop_book_nodup place _ _ book 0 hnd,
      fun s hs => placeLoop_attempted_disjoint place _ _ book 0 s hs⟩
  · exact ⟨placeLoop_book_nodup place _ _ book 0 hnd,
      fun s hs => placeLoop_attempted_disjoint place _ _ book 0 s hs⟩

/-- Witness for C4: a run over signals for AAPL (already held), MSFT,
TSLA, NVDA, JPM, starting from the one-entry book `["AAPL"]`. -/
theorem c4_one_spread_per_symbol_witness :
    (["AAPL"] : List String).Nodup ∧
    (runEntriesBody defaultRunnerConfig ["AAPL"] srFive placeAll).book.Nodup ∧
    ∀ s ∈ (["AAPL"] : List String),
      s ∉ (runEntriesBody defaultRunnerConfig ["AAPL"] srFive
        placeAll).attempted.map Prod.snd := by
  have h := c4_one_spread_per_symbol defaultRunnerConfig ["AAPL"] srFive
    placeAll (by simp)
  exact ⟨by simp, h.1, h.2⟩

/-- C10: `run_entries_if_time` stamps `last_run_date` with today's date
as the first statement of its `try` block, before any scan or trade;
even when the body raises (and the method returns `False`), no second
entry attempt can happen the same day — the guard sees
`last_run_date = today` and returns immediately with the state
unchanged. -/
theorem c10_failed_run_consumes_day :
    ∀ (cfg : RunnerConfig) (st : TraderState) (today hour : ℕ)
      (body : EntryBody) (place : Direction → String → Bool),
      hour ≥ cfg.SCAN_HOUR_ET → st.last_run_date ≠ some today →
      (run_entries_if_time cfg st today hour body place).1.last_run_date =
        some today ∧
      ∀ (hour2 : ℕ) (body2 : EntryBody)
        (place2 : Direction → String → Bool),
        run_entries_if_time cfg
          (run_entries_if_time cfg st today hour body place).1
          today hour2 body2 place2 =
          ((run_entries_if_time cfg st today hour body place).1, false) := by
  intro cfg st today hour body place hhour hnew
  have hrun : (run_entries_if_time cfg st today hour body place).1.last_run_date =
      some today := by
    simp only [run_entries_if_time, if_pos (And.intro hhour hnew)]
    cases body <;> rfl
  refine ⟨hrun, fun hour2 body2 place2 => ?_⟩
  simp only [run_entries_if_time]
  rw [if_neg]
  rintro ⟨-, hne⟩
  exact hne hrun

/-- Witness for C10: at 15:00 ET on day 0, a run whose body raises
still stamps the date, and a retry the same day is a no-op returning
`False`. -/
theorem c10_failed_run_consumes_day_witness :
    (15 ≥ defaultRunnerConfig.SCAN_HOUR_ET ∧
      (⟨none, []⟩ : TraderState).last_run_date ≠ some 0) ∧
    (run_entries_if_time defaultRunnerConfig ⟨none, []⟩ 0 15
      (.raises ["XYZ"]) placeAll).1.last_run_date = some 0 ∧
    run_entries_if_time defaultRunnerConfig
      (run_entries_if_time defaultRunnerConfig ⟨none, []⟩ 0 15
        (.raises ["XYZ"]) placeAll).1 0 16 (.ok srFive) placeAll =
      ((run_entries_if_time defaultRunnerConfig ⟨none, []⟩ 0 15
        (.raises ["XYZ"]) placeAll).1, false) := by
  have h := c10_failed_run_consumes_day defaultRunnerConfig ⟨none, []⟩ 0 15
    (.raises ["XYZ"]) placeAll (by simp [defaultRunnerConfig]) (by simp)
  exact ⟨⟨by simp [defaultRunnerConfig], by simp⟩, h.1, h.2 16 (.ok srFive) placeAll⟩

/-! ## Exit-target calculators (`exits.py`, `find_recent_swing`)

`find_recent_swing` only reads the `low` and `high` columns of the price
table; each daily bar is embedded by those two fields. -/

/-- One daily bar as read by `find_recent_swing`: its low and high. -/
structure PriceBar where
  low : ℚ
  high : ℚ
deriving DecidableEq, Repr

/-- Python `max(xs)` over a nonempty list (the default is never used by
`find_recent_swing`, whose slices are nonempty). -/
def maxListD : List ℚ → ℚ → ℚ
  | [], d => d
  | x :: xs, _ => xs.foldl max x

/-- Python `min(xs)` over a nonempty list. -/
def minListD : List ℚ → ℚ → ℚ
  | [], d => d
  | x :: xs, _ => xs.foldl min x

/-- The bullish scan of `find_recent_swing` (exits.py lines 27–33):
`for i in range(window, 1, -1)` — from the window's oldest bar toward
the recent end, stopping at `i = 2` — looking for `prices[-i]` strictly
below both neighbours; on a hit it returns
`(prices[-i], max(prices[-i+1:]), -i)` over the SAME `prices` array,
which is the `low` column.  Negative Python indices become `n − i`; the
argument counts the current `i` down to 2. -/
def swingLowScan (prices : List ℚ) : ℕ → Option (ℚ × ℚ × ℤ)
  | 0 => none
  | 1 => none
  | (i + 2) =>
    let n := prices.length
    let p := prices.getD (n - (i + 2)) 0
    let pPrev := prices.getD (n - (i + 2) - 1) 0
    let pNext := prices.getD (n - (i + 2) + 1) 0
    if p < pPrev ∧ p < pNext then
      some (p, maxListD (prices.drop (n - (i + 2) + 1)) 0, -((i + 2 : ℕ) : ℤ))
    else swingLowScan prices (i + 1)

/-- The bearish scan of `find_recent_swing` (exits.py lines 37–45):
symmetric, over the `high` column, returning
`(prices[-i], min(prices[-i+1:]), -i)`. -/
def swingHighScan (prices : List ℚ) : ℕ → Option (ℚ × ℚ × ℤ)
  | 0 => none
  | 1 => none
  | (i + 2) =>
    let n := prices.length
    let p := prices.getD (n - (i + 2)) 0
    let pPrev := prices.getD (n - (i + 2) - 1) 0
    let pNext := prices.getD (n - (i + 2) + 1) 0
    if p > pPrev ∧ p > pNext then
      some (p, minListD (prices.drop (n - (i + 2) + 1)) 0, -((i + 2 : ℕ) : ℤ))
    else swingHighScan prices (i + 1)

/-- `find_recent_swing` (exits.py lines 11–51): scan back up to
`window = min(20, len(df) - 2)` bars for a local extremum of the
direction's column; fall back to the absolute extremes over the whole
history with index −10 when none is found. -/
def find_recent_swing (df : List PriceBar) (direction : Direction) :
    ℚ × ℚ × ℤ :=
  if direction.isBullish then
    let window := min 20 (df.length - 2)
    let prices := df.map PriceBar.low
    match swingLowScan prices window with
    | some r => r
    | none => (minListD (df.map PriceBar.low) 0, maxListD (df.map PriceBar.high) 0, -10)
  else
    let window := min 20 (df.length - 2)
    let prices := df.map PriceBar.high
    match swingHighScan prices window with
    | some r => r
    | none => (maxListD (df.map PriceBar.high) 0, minListD (df.map PriceBar.low) 0, -10)

/-- Five-bar table: lows 9, 1, 5, 4, 6 and highs 10, 2, 6, 5, 7.  The
bar at offset −2 (low 4) is a swing low: 4 < 5 and 4 < 6. -/
def dfSwing : List PriceBar :=
  [⟨9, 10⟩, ⟨1, 2⟩, ⟨5, 6⟩, ⟨4, 5⟩, ⟨6, 7⟩]

end AutoTrader

namespace AutoTrader

/-- C6 (violated by the code): on `dfSwing`, the bullish branch of
`find_recent_swing` detects the swing low 4 at offset −2, but returns as
swing end `max(prices[-1:]) = 6` computed over the LOW column, not the
highest HIGH from the swing-low bar forward, which is 7 (highs 5, 7):
the code reuses the `prices` array (the lows) where its own variable
name `swing_high` and its fallback branch use the `high` column. -/
theorem c6_swing_end_uses_low_column :
    find_recent_swing dfSwing .bull = (4, 6, -2) ∧
    maxListD ((dfSwing.drop 3).map PriceBar.high) 0 = 7 ∧
    (6 : ℚ) ≠ 7 := by
  refine ⟨?_, ?_, by norm_num⟩
  · norm_num [find_recent_swing, Direction.isBullish, dfSwing, swingLowScan,
      maxListD, minListD]
  · norm_num [dfSwing, maxListD]

/-! ## Pattern scans (`scans.py`, `high_base_condition`)

`high_base_condition` reads the `close`, `52w_high`, `ATR_ratio` and
`range_ratio` columns of the indicator table.  The derived columns can
be NaN where their rolling windows lack data (`52w_high` is NaN until
252 bars exist); NaN is modelled as `none`, and a comparison against
NaN is false, as in pandas. -/

/-- One row of the indicator table as read by `high_base_condition`:
`ATR_rel` embeds the `ATR_ratio` column and `range_rel` the
`range_ratio` column. -/
structure TechRow where
  close : ℚ
  w52high : Option ℚ
  ATR_rel : Option ℚ
  range_rel : Option ℚ
deriving DecidableEq, Repr

/-- `close >= threshold * column` with NaN comparing false. -/
def geScaled (close : ℚ) (thr : ℚ) (o : Option ℚ) : Bool :=
  match o with
  | some h => decide (close ≥ thr * h)
  | none => false

/-- `column < threshold` with NaN comparing false. -/
def ltOpt (o : Option ℚ) (thr : ℚ) : Bool :=
  match o with
  | some v => decide (v < thr)
  | none => false

/-- `high_base_condition` (scans.py lines 253–283): false on fewer than
20 bars; otherwise, on the most recent bar,
`close ≥ 0.95 × 52w_high`, `ATR_ratio < 0.8` and `range_ratio < 0.8`
must all hold (the three thresholds are the literals of the function's
`config_values`). -/
def high_base_condition (df : List TechRow) : Bool :=
  if df.length < 20 then false
  else
    match df.getLast? with
    | none => false
    | some row =>
      geScaled row.close (95/100) row.w52high &&
      ltOpt row.ATR_rel (8/10) &&
      ltOpt row.range_rel (8/10)

/-- The `52w_high` value of the most recent bar, as computed by
`get_tech_df` (scans.py line 102): the 252-bar rolling maximum of
`close`, NaN (`none`) when fewer than 252 bars exist. -/
def rollingMax252 (closes : List ℚ) : Option ℚ :=
  if closes.length ≥ 252 then
    some (maxListD (closes.drop (closes.length - 252)) 0)
  else none

/-- A flat indicator row: close 100, 52-week high 100 (its own rolling
maximum over a constant table), quiet volatility and range ratios. -/
def rowFlat : TechRow :=
  { close := 100
    w52high := some 100
    ATR_rel := some (1/2)
    range_rel := some (1/2) }

end AutoTrader

namespace AutoTrader

/-- Helper: folding `max` over copies of `x` starting at `x` gives `x`. -/
lemma foldl_max_replicate (x : ℚ) :
    ∀ n : ℕ, (List.replicate n x).foldl max x = x := by
  intro n
  induction n with
  | zero => rfl
  | succ k ih => simpa [List.replicate_succ, max_self] using ih

/-- Helper: the maximum of a constant nonempty list is its element. -/
lemma maxListD_replicate (x : ℚ) (n : ℕ) (h : 0 < n) :
    maxListD (List.replicate n x) 0 = x := by
  cases n with
  | zero => omega
  | succ k => simpa [List.replicate_succ, maxListD] using foldl_max_replicate x k

end AutoTrader

namespace AutoTrader

/-- C7: `high_base_condition` is true iff the table has at least 20
bars and the most recent bar has `close ≥ 0.95` times the 252-bar
rolling maximum of close (the `52w_high` column, NaN — hence false —
below 252 bars), `ATR_ratio` strictly below 0.8 and `range_ratio`
strictly below 0.8; an `ATR_ratio` of exactly 0.8 gives false, and any
table under 20 bars gives false. -/
theorem c7_high_base_iff :
    (∀ df : List TechRow, df.length < 20 → high_base_condition df = false) ∧
    (∀ (df : List TechRow) (row : TechRow),
      df.getLast? = some row →
      row.w52high = rollingMax252 (df.map TechRow.close) →
      (high_base_condition df = true ↔
        20 ≤ df.length ∧
        (∃ h, rollingMax252 (df.map TechRow.close) = some h ∧
          row.close ≥ (95/100) * h) ∧
        (∃ a, row.ATR_rel = some a ∧ a < 8/10) ∧
        (∃ r, row.range_rel = some r ∧ r < 8/10)) ∧
      (row.ATR_rel = some (8/10) → high_base_condition df = false)) := by
  constructor
  · intro df hlt
    simp [high_base_condition, hlt]
  · intro df row hlast hcol
    have hsplit : ∀ b : Bool,
        (if df.length < 20 then false else b) = b ∨ df.length < 20 := by
      intro b
      by_cases h : df.length < 20
      · exact Or.inr h
      · exact Or.inl (if_neg h)
    constructor
    · constructor
      · intro htrue
        simp only [high_base_condition, hlast] at htrue
        split_ifs at htrue with hlen
        refine ⟨by omega, ?_, ?_, ?_⟩ <;>
          simp only [Bool.and_eq_true] at htrue
        · rcases hw : row.w52high with _ | hv
          · rw [hw] at htrue; simp [geScaled] at htrue
          · refine ⟨hv, by rw [← hcol, hw], ?_⟩
            have := htrue.1.1
            rw [hw] at this
            simpa [geScaled] using this
        · rcases ha : row.ATR_rel with _ | av
          · rw [ha] at htrue; simp [ltOpt] at htrue
          · refine ⟨av, rfl, ?_⟩
            have := htrue.1.2
            rw [ha] at this
            simpa [ltOpt] using this
        · rcases hr : row.range_rel with _ | rv
          · rw [hr] at htrue; simp [ltOpt] at htrue
          · refine ⟨rv, rfl, ?_⟩
            have := htrue.2
            rw [hr] at this
            simpa [ltOpt] using this
      · rintro ⟨hlen, ⟨h, hh, hclose⟩, ⟨a, ha, halt⟩, ⟨r, hr, hrlt⟩⟩
        have hw : row.w52high = some h := by rw [hcol, hh]
        simp only [high_base_condition, hlast, hw, ha, hr, geScaled, ltOpt]
        rw [if_neg (by omega)]
        simp [hclose, halt, hrlt]
    · intro ha
      simp only [high_base_condition, hlast, ha, ltOpt]
      split_ifs with hlen
      · rfl
      · simp

/-- Witness for C7: a 252-bar constant table at close 100 with quiet
ratios satisfies the condition; its `52w_high` is the rolling maximum
of its own close column. -/
theorem c7_high_base_iff_witness :
    (List.replicate 252 rowFlat).getLast? = some rowFlat ∧
    rowFlat.w52high =
      rollingMax252 ((List.replicate 252 rowFlat).map TechRow.close) ∧
    high_base_condition (List.replicate 252 rowFlat) = true := by
  have hlast : (List.replicate 252 rowFlat).getLast? = some rowFlat := by
    rw [List.replicate_succ' 251 rowFlat]
    exact List.getLast?_concat _
  have hmap : (List.replicate 252 rowFlat).map TechRow.close =
      List.replicate 252 (100 : ℚ) := by
    rw [List.map_replicate]
    rfl
  have hcol : rowFlat.w52high =
      rollingMax252 ((List.replicate 252 rowFlat).map TechRow.close) := by
    rw [hmap]
    simp only [rollingMax252, List.length_replicate]
    rw [if_pos (by omega)]
    simp only [Nat.sub_self, List.drop_zero]
    rw [maxListD_replicate _ _ (by omega)]
    rfl
  refine ⟨hlast, hcol, ?_⟩
  rw [(c7_high_base_iff.2 (List.replicate 252 rowFlat) rowFlat hlast hcol).1]
  refine ⟨by rw [List.length_replicate]; omega, ⟨100, ?_, by norm_num [rowFlat]⟩,
    ⟨1/2, rfl, by norm_num⟩, ⟨1/2, rfl, by norm_num⟩⟩
  rw [← hcol]
  rfl

/-! ## Candlestick pattern utilities (`pattern_utils.py`, `has_pattern`)

`has_pattern` wraps `cdl_pattern`, which raises on a missing OHLC column
and otherwise delegates to the pandas-ta backend.  The backend is an
external library, embedded as an oracle: `none` models a raised
exception, `some` a pattern-score table (column name, column values;
`none` inside a column models a None/NaN score). -/

/-- The pattern-score table produced by the pandas-ta backend. -/
structure PatternDF where
  cols : List (String × List (Option ℚ))
deriving DecidableEq, Repr

/-- Python `str.upper()` character by character (the library function
over the underlying character list). -/
def upperChars : List Char → List Char
  | [] => []
  | c :: cs => c.toUpper :: upperChars cs

/-- Python `pattern.upper()`. -/
def strUpper (s : String) : String := ⟨upperChars s.data⟩

/-- Python `col.startswith(pre)`: the characters of `pre` lead those of
`col`. -/
def strStarts (col pre : String) : Bool := pre.data.isPrefixOf col.data

/-- `cdl_pattern` (pattern_utils.py lines 25–57): raises a
missing-column error when any of open/high/low/close is absent
(`hasOHLC = false`), otherwise returns whatever the backend call
returns (re-raising its errors). -/
def cdl_pattern (hasOHLC : Bool) (taOut : Option PatternDF) :
    Option PatternDF :=
  if hasOHLC then taOut else none

/-- `has_pattern` (pattern_utils.py lines 60–94): every raised error is
swallowed into `false`; otherwise the first column whose name starts
with `CDL_<PATTERN>` is read at its most recent row, and the result is
`last_value is not None and abs(last_value) > threshold`. -/
def has_pattern (hasOHLC : Bool) (taOut : Option PatternDF)
    (pattern : String) (threshold : ℚ) : Bool :=
  match cdl_pattern hasOHLC taOut with
  | none => false
  | some pdf =>
    match pdf.cols.filter
        (fun col => strStarts col.1 ("CDL_" ++ strUpper pattern)) with
    | [] => false
    | (_, vals) :: _ =>
      match vals.getLast? with
      | none => false
      | some none => false
      | some (some v) => decide (|v| > threshold)

/-- A backend result holding one doji column whose most recent score
is 100. -/
def pdfDoji : PatternDF := ⟨[("CDL_DOJI", [some 100])]⟩

end AutoTrader

namespace AutoTrader

/-- C8 counterexample: with the doji score of the most recent bar
exactly equal to the threshold 100, the claim's "at or above" predicts
`true`, but `has_pattern` compares strictly (`abs(last_value) >
threshold`) and returns `false`. -/
theorem c8_at_or_above_counterexample :
    has_pattern true (some pdfDoji) "doji" 100 = false ∧
    |(100 : ℚ)| ≥ 100 := by
  constructor
  · have hpre : strStarts "CDL_DOJI" ("CDL_" ++ strUpper "doji") = true := by
      decide
    simp only [has_pattern, cdl_pattern, if_true, pdfDoji,
      List.filter_cons, hpre, List.filter_nil, List.getLast?_singleton,
      decide_eq_false_iff_not, not_lt]
    rw [abs_of_nonneg (by norm_num : (0 : ℚ) ≤ 100)]
  · rw [abs_of_nonneg (by norm_num : (0 : ℚ) ≤ 100)]

/-- C8 as amended: `has_pattern` still swallows every error into
`false` — a missing OHLC column, a raised backend call, a pattern with
no matching output column, an empty column, a None score — and on a
present score `v` it returns true exactly when `|v|` is STRICTLY above
the threshold. -/
theorem c8_amended_strict_threshold :
    (∀ (taOut : Option PatternDF) (pattern : String) (threshold : ℚ),
      has_pattern false taOut pattern threshold = false) ∧
    (∀ (pattern : String) (threshold : ℚ),
      has_pattern true none pattern threshold = false) ∧
    (∀ (pattern : String) (threshold : ℚ) (pdf : PatternDF),
      pdf.cols.filter
        (fun col => strStarts col.1 ("CDL_" ++ strUpper pattern)) = [] →
      has_pattern true (some pdf) pattern threshold = false) ∧
    (∀ (pattern : String) (threshold : ℚ) (pdf : PatternDF)
      (name : String) (vals : List (Option ℚ))
      (rest : List (String × List (Option ℚ))),
      pdf.cols.filter
        (fun col => strStarts col.1 ("CDL_" ++ strUpper pattern)) =
          (name, vals) :: rest →
      (vals.getLast? = none → has_pattern true (some pdf) pattern threshold = false) ∧
      (vals.getLast? = some none → has_pattern true (some pdf) pattern threshold = false) ∧
      (∀ v : ℚ, vals.getLast? = some (some v) →
        (has_pattern true (some pdf) pattern threshold = true ↔ |v| > threshold))) := by
  refine ⟨fun taOut pattern threshold => rfl,
    fun pattern threshold => rfl,
    fun pattern threshold pdf hfilter => ?_,
    fun pattern threshold pdf name vals rest hfilter => ⟨?_, ?_, ?_⟩⟩
  · simp only [has_pattern, cdl_pattern, if_pos, hfilter]
  · intro hlast
    simp only [has_pattern, cdl_pattern, if_pos, hfilter, hlast]
  · intro hlast
    simp only [has_pattern, cdl_pattern, if_pos, hfilter, hlast]
  · intro v hlast
    simp only [has_pattern, cdl_pattern, if_pos, hfilter, hlast,
      decide_eq_true_eq]

/-- Witness for C8's amended statement: the doji column of `pdfDoji`
matches the query "doji", its last score is 100, and with threshold 50
the query returns true since `|100| > 50`. -/
theorem c8_amended_strict_threshold_witness :
    pdfDoji.cols.filter
      (fun col => strStarts col.1 ("CDL_" ++ strUpper "doji")) =
        ("CDL_DOJI", [some 100]) :: [] ∧
    ([some (100 : ℚ)] : List (Option ℚ)).getLast? = some (some 100) ∧
    has_pattern true (some pdfDoji) "doji" 50 = true := by
  have hfilter : pdfDoji.cols.filter
      (fun col => strStarts col.1 ("CDL_" ++ strUpper "doji")) =
        ("CDL_DOJI", [some 100]) :: [] := by
    have hpre : strStarts "CDL_DOJI" ("CDL_" ++ strUpper "doji") = true := by
      decide
    simp [pdfDoji, List.filter_cons, hpre, List.filter_nil]
  refine ⟨hfilter, rfl, ?_⟩
  rw [((c8_amended_strict_threshold.2.2.2 "doji" 50 pdfDoji "CDL_DOJI"
    [some 100] [] hfilter).2.2 100 rfl)]
  rw [abs_of_nonneg (by norm_num : (0 : ℚ) ≤ 100)]
  norm_num

end AutoTrader
